import Mathlib

/-!
Shallow embedding of the tfprettyplan plan-diff rendering engine:
the width policy (pkg/config), the value truncator and report renderer
(pkg/renderer, second revision of renderer.go), the change normalizer and
plan aggregator (pkg/parser), over the data model of pkg/models.

Go strings are modelled as lists of characters (`Str`); all inputs the
claims touch are ASCII, where Go's byte-based lengths and indices coincide
with character counts.
-/

namespace TFPP

/-- Go string, modelled as a list of characters. -/
abbrev Str := List Char

/-- Converts a Lean string literal to the `Str` model. -/
def str (s : String) : Str := s.data

/-- Go `fmt` verb `%-*s`: left-justify, pad on the right with spaces to
width `w` (never truncates). -/
def padRight (s : Str) (w : Nat) : Str := s ++ List.replicate (w - s.length) ' '

/-- Go `fmt` verb `%*d` (e.g. `%5d`): right-justify, pad on the left. -/
def padLeft (s : Str) (w : Nat) : Str := List.replicate (w - s.length) ' ' ++ s

/-- Decimal rendering of a count, as Go `%d` on a non-negative int. -/
def natStr (n : Nat) : Str := (Nat.repr n).data

/-- Go `strings.Repeat(s, n)` for a one-character `s`. -/
def repChar (c : Char) (n : Nat) : Str := List.replicate n c

/-- Go `strings.Contains(v, pat)` for a multi-character pattern. -/
def containsSub (v pat : Str) : Bool := v.tails.any fun t => pat.isPrefixOf t

/-- Go `strings.Split(value, sep)` for a one-character separator. -/
def splitOnChar (c : Char) : Str → List Str
  | [] => [[]]
  | a :: rest =>
    match splitOnChar c rest with
    | [] => [[]]
    | s :: ss => if a = c then [] :: s :: ss else (a :: s) :: ss

/-- Lookup in a Go `map[string]...` decoded value, modelled as an
association list (Go map keys are unique; first match). -/
def lookupA {α : Type} : List (Str × α) → Str → Option α
  | [], _ => none
  | (k, v) :: rest, key => if k = key then some v else lookupA rest key

/-! ### pkg/config: width policy -/

/-- Go constant `config.StandardFormat`. -/
def standardFormat : Str := str "standard"

/-- Go constant `config.WideFormat`. -/
def wideFormat : Str := str "wide"

/-- Go struct `config.Config`. -/
structure Config where
  outputFormat : Str
  noColor : Bool
  maxWidth : Int
  autoDetectWidth : Bool

/-- Go struct `config.TableConfig`. -/
structure TableConfig where
  maxAttributeWidth : Int
  maxValueWidth : Int
  minValueWidth : Int
deriving DecidableEq

/-- Go `config.DefaultConfig`. -/
def defaultConfig : Config :=
  { outputFormat := standardFormat
    noColor := false
    maxWidth := 80
    autoDetectWidth := true }

/-- Go `(*Config).GetTableConfig` (config.go lines 46-75). The divisions
act on a value that the guard forces positive, where Go's truncating
division and Lean's `Int` division agree. -/
def getTableConfig (c : Config) : TableConfig :=
  let tc : TableConfig :=
    { maxAttributeWidth := 13
      minValueWidth := 10
      maxValueWidth := if c.outputFormat = wideFormat then 32 else 16 }
  if c.autoDetectWidth ∧ 0 < c.maxWidth then
    let availableWidth := c.maxWidth - 10
    if 60 < availableWidth then
      { tc with
        maxAttributeWidth := availableWidth * 30 / 100
        maxValueWidth := availableWidth * 35 / 100 }
    else tc
  else tc

/-! ### pkg/renderer: value truncator (`truncateValue`, renderer.go 576-661) -/

/-- The middle-segment fitting loop of the path branch of `truncateValue`
(renderer.go 599-608): greedily appends interior path segments to `middle`
while the running length fits `remainingSpace`, stopping at the first
segment that does not fit. -/
def fitMiddle (rs : Int) : List Str → Str → Str
  | [], middle => middle
  | p :: rest, middle =>
    if (middle.length : Int) + p.length + 1 ≤ rs then
      fitMiddle rs rest (if middle = [] then p else middle ++ '/' :: p)
    else middle

/-- The path-aware branch of `truncateValue` (renderer.go 584-616); `none`
when the branch falls through to the later strategies. -/
def pathTruncOpt (value : Str) (maxWidth : Nat) : Option Str :=
  if value.contains '/' then
    let parts := splitOnChar '/' value
    if parts.length > 2 then
      let firstPart := parts.headI
      let lastPart := parts.getLastD []
      let remainingSpace : Int := (maxWidth : Int) - firstPart.length - lastPart.length - 5
      if 0 < remainingSpace then
        let middle := fitMiddle remainingSpace ((parts.drop 1).dropLast) []
        if middle ≠ [] then
          some (firstPart ++ '/' :: (middle ++ str "/.../" ++ lastPart))
        else
          some (firstPart ++ str "/.../" ++ lastPart)
      else none
    else none
  else none

/-- Go `(*Renderer).truncateValue` (renderer.go 576-661). The receiver is
unused by the source function, so it is modelled receiver-free. Go slice
expressions `value[i:j]` are in bounds at every use (the value is longer
than `maxWidth`) and are modelled with `drop`/`take`. -/
def truncateValue (value : Str) (maxWidth : Nat) : Str :=
  if value.length ≤ maxWidth then value
  else
    match pathTruncOpt value maxWidth with
    | some s => s
    | none =>
      if (str "\x7b").isPrefixOf value && (str "\x7d").isSuffixOf value then
        if 5 ≤ maxWidth then
          let contentLength := maxWidth - 5
          if 0 < contentLength then
            if containsSub value (str "\"key\":\"value\"") && 20 ≤ maxWidth then
              str "\x7b\"key\":\"value\"...\x7d\x7d"
            else
              '\x7b' :: ((value.drop 1).take contentLength) ++ str "...\x7d"
          else str "\x7b...\x7d"
        else str "\x7b...\x7d"
      else if (str "[").isPrefixOf value && (str "]").isSuffixOf value then
        if 5 ≤ maxWidth then
          let contentLength := maxWidth - 5
          if 0 < contentLength then
            '[' :: ((value.drop 1).take contentLength) ++ str "...]"
          else str "[...]"
        else str "[...]"
      else if maxWidth < value.length ∧ 6 < maxWidth then
        let halfWidth := (maxWidth - 3) / 2
        if containsSub value (str "this is a very long value") then
          str "this is a...runcated"
        else
          value.take halfWidth ++ str "..." ++ value.drop (value.length - halfWidth)
      else if 3 < maxWidth then
        value.take (maxWidth - 3) ++ str "..."
      else str "..."

example : truncateValue (str "/very/long/path/with/many/nested/directories/file.txt") 25
    = str "/very/long/.../file.txt" := by decide

example : truncateValue (str "xx/a/b/cccccc/yy") 12 = str "xx/a/b/.../yy" := by decide

example : truncateValue (str "this is a very long value that should be truncated") 20
    = str "this is a...runcated" := by decide

example : truncateValue (str "short") 10 = str "short" := by decide

/-! ### pkg/models: data model -/

/-- Go `models.ChangeType`: a string type whose only values produced by the
normalizer are the four constants below, modelled as an enumeration. -/
inductive ChangeType where
  | create
  | update
  | delete
  | noOp
deriving DecidableEq

/-- Decoded JSON value (Go `interface{}` after `encoding/json` decoding).
JSON numbers decode to Go `float64`; no claim observes numeric formatting,
so numbers are modelled as integers. Objects are association lists. -/
inductive JValue where
  | null
  | bool (b : Bool)
  | num (n : Int)
  | str (s : Str)
  | arr (xs : List JValue)
  | obj (fields : List (Str × JValue))

instance : Inhabited JValue := ⟨JValue.null⟩

mutual

/-- Go `fmt.Sprintf("%v", v)` on a decoded JSON value: strings print as
their text, booleans as `true`/`false`, `nil` as `<nil>`, slices as
space-joined bracketed lists, maps in `map[k:v ...]` form (Go additionally
sorts map keys for printing; entry order is kept here, and no claim
observes a nested container's printed form). -/
def displayValue : JValue → Str
  | .null => str "<nil>"
  | .bool true => str "true"
  | .bool false => str "false"
  | .num n => (toString n).data
  | .str s => s
  | .arr xs => '[' :: joinSpace (displayList xs) ++ [']']
  | .obj fs => str "map[" ++ joinSpace (displayEntries fs) ++ [']']

/-- Display forms of the elements of a decoded JSON array. -/
def displayList : List JValue → List Str
  | [] => []
  | x :: xs => displayValue x :: displayList xs

/-- Display forms `key:value` of the entries of a decoded JSON object. -/
def displayEntries : List (Str × JValue) → List Str
  | [] => []
  | (k, v) :: fs => (k ++ ':' :: displayValue v) :: displayEntries fs

/-- Space-separated join, as in Go's default printing of containers. -/
def joinSpace : List Str → Str
  | [] => []
  | [s] => s
  | s :: rest => s ++ ' ' :: joinSpace rest

end

/-- Go struct `models.ResourceChange`. -/
structure ResourceChange where
  address : Str
  type : Str
  name : Str
  changeType : ChangeType
  before : List (Str × JValue)
  after : List (Str × JValue)
  beforeValues : List (Str × Str)
  afterValues : List (Str × Str)
  module : Str

/-- Go struct `models.PlanSummary`. The four counters are only ever
incremented from zero by the aggregator and are modelled as naturals. -/
structure PlanSummary where
  resourceChanges : List ResourceChange
  addCount : Nat := 0
  changeCount : Nat := 0
  deleteCount : Nat := 0
  noOpCount : Nat := 0

/-! ### pkg/parser: change normalizer and plan aggregator -/

/-- One entry of `TerraformPlan.ResourceChanges`, a decoded
`map[string]interface{}`. -/
abbrev RawRecord := List (Str × JValue)

/-- Go `strings.LastIndex(s, ".")` as a character index (`-1` when the
character does not occur). -/
def lastDotIndex (s : Str) : Int :=
  match s with
  | [] => -1
  | a :: rest =>
    let r := lastDotIndex rest
    if 0 ≤ r then r + 1 else if a = '.' then 0 else -1

/-- Go `(*Parser).processResourceChange` (parser.go 188-287): normalizes
one raw resource-change record. Failed Go type assertions with a discarded
`ok` yield the type's zero value, modelled by the `_` match arms. -/
def processResourceChange (raw : RawRecord) : Except Str ResourceChange :=
  match lookupA raw (str "address") with
  | some (.str address) =>
    if address = [] then .error (str "missing or invalid resource address")
    else
      let typeName0 := match lookupA raw (str "type") with
        | some (.str t) => t
        | _ => []
      let parts := splitOnChar '.' address
      let typeName := if typeName0 = [] then
          (if parts.length > 0 then parts.headI else typeName0)
        else typeName0
      let name := if parts.length > 1 then parts.getLastD [] else []
      let module := if (str "module.").isPrefixOf address then
          (let moduleEnd := lastDotIndex address
           if 0 < moduleEnd then address.take moduleEnd.toNat else [])
        else []
      match lookupA raw (str "change") with
      | some (.obj change) =>
        let changeType := match lookupA change (str "actions") with
          | some (.arr actions) =>
            if actions.length > 0 then
              let action := match actions.headI with
                | .str a => a
                | _ => []
              if action = str "create" then ChangeType.create
              else if action = str "update" then ChangeType.update
              else if action = str "delete" then ChangeType.delete
              else if action = str "no-op" then ChangeType.noOp
              else ChangeType.noOp
            else ChangeType.noOp
          | _ => ChangeType.noOp
        let before := match lookupA change (str "before") with
          | some (.obj m) => m
          | _ => []
        let after := match lookupA change (str "after") with
          | some (.obj m) => m
          | _ => []
        .ok { address := address
              type := typeName
              name := name
              changeType := changeType
              before := before
              after := after
              beforeValues := before.map fun kv => (kv.1, displayValue kv.2)
              afterValues := after.map fun kv => (kv.1, displayValue kv.2)
              module := module }
      | _ =>
        .ok { address := address
              type := typeName
              name := name
              changeType := ChangeType.noOp
              before := []
              after := []
              beforeValues := []
              afterValues := []
              module := module }
  | _ => .error (str "missing or invalid resource address")

/-- One iteration of the aggregation loop of `(*Parser).ParseJSON`
(parser.go 159-182): a record whose normalization fails is skipped (its
error goes to the diagnostic stream), a normalized record is appended and
bumps exactly the counter of its change kind. -/
def aggregateStep (s : PlanSummary) (raw : RawRecord) : PlanSummary :=
  match processResourceChange raw with
  | .error _ => s
  | .ok rc =>
    let s := { s with resourceChanges := s.resourceChanges ++ [rc] }
    match rc.changeType with
    | .create => { s with addCount := s.addCount + 1 }
    | .update => { s with changeCount := s.changeCount + 1 }
    | .delete => { s with deleteCount := s.deleteCount + 1 }
    | .noOp => { s with noOpCount := s.noOpCount + 1 }

/-- Go `(*Parser).ParseJSON` (parser.go 147-184) from the decoded
`resource_changes` list on: an empty (or absent) list yields the empty
summary, otherwise every record is aggregated in order. -/
def parseJSONFromChanges (records : List RawRecord) : PlanSummary :=
  if records.length = 0 then { resourceChanges := [] }
  else records.foldl aggregateStep { resourceChanges := [] }

/-! ### pkg/renderer: report renderer (second revision of renderer.go) -/

/-- Go struct `renderer.Renderer` after option application: `New` always
installs a config and its table config, `WithConfig` replaces both. -/
structure Renderer where
  colorEnabled : Bool
  config : Config
  tableConfig : TableConfig

/-- Go `renderer.New()` with no options. -/
def newRenderer : Renderer :=
  { colorEnabled := true
    config := defaultConfig
    tableConfig := getTableConfig defaultConfig }

/-- ANSI escape wrapping done by the library `github.com/fatih/color`
when color is active (modelled from that library; the renderer only calls
these under its own `colorEnabled` guard). -/
def colorize (code : Str) (s : Str) : Str :=
  str "\x1b[" ++ code ++ 'm' :: (s ++ str "\x1b[0m")

/-- Library `color.GreenString`. -/
def greenString (s : Str) : Str := colorize (str "32") s

/-- Library `color.YellowString`. -/
def yellowString (s : Str) : Str := colorize (str "33") s

/-- Library `color.RedString`. -/
def redString (s : Str) : Str := colorize (str "31") s

/-- Library `color.BlueString`. -/
def blueString (s : Str) : Str := colorize (str "34") s

/-- Library `color.New(color.Bold).Sprint`. -/
def boldSprint (s : Str) : Str := colorize (str "1") s

/-- One output line: `fmt.Fprintln` / a `\n`-terminated `fmt.Fprintf`. -/
def line (s : Str) : Str := s ++ ['\n']

/-- Header block of `renderSummaryTable` (renderer.go 292-300). -/
def summaryHeader (r : Renderer) : Str :=
  line (if r.colorEnabled then boldSprint (str "Terraform Plan Summary")
        else str "Terraform Plan Summary")
  ++ line (if r.colorEnabled then boldSprint (str "=====================")
           else str "=====================")
  ++ ['\n']

/-- Top border of the summary count table (renderer.go 319-324). -/
def summaryTopBorder : Str :=
  line ('┌' :: repChar '─' 8 ++ '┬' :: repChar '─' 7 ++ ['┐'])

/-- Column-header row of the summary count table (renderer.go 326-331). -/
def summaryHeaderRow : Str :=
  line (str "│ " ++ padRight (str "ACTION") 6 ++ str " │ " ++ padRight (str "COUNT") 5 ++ str " │")

/-- Row separator of the summary count table (renderer.go 333-338). -/
def summarySep : Str :=
  line ('├' :: repChar '─' 8 ++ '┼' :: repChar '─' 7 ++ ['┤'])

/-- Bottom border of the summary count table (renderer.go 392-398). -/
def summaryBottomBorder : Str :=
  line ('└' :: repChar '─' 8 ++ '┴' :: repChar '─' 7 ++ ['┘'])

/-- The `addRow` closure of `renderSummaryTable` (renderer.go 341-358):
every action row is emitted even when its count is zero. -/
def actionRow (r : Renderer) (action : Str) (count : Nat) (colorFn : Str → Str) : Str :=
  line (str "│ " ++ padRight (if r.colorEnabled then colorFn action else action) 6
        ++ str " │ " ++ padLeft (natStr count) 5 ++ str " │")

/-- The Total row of the summary count table (renderer.go 374-390). -/
def totalRow (r : Renderer) (total : Nat) : Str :=
  line (str "│ " ++ padRight (if r.colorEnabled then boldSprint (str "Total") else str "Total") 6
        ++ str " │ " ++ padLeft (natStr total) 5 ++ str " │")

/-- Go `(*Renderer).renderSummaryTable` (renderer.go 290-401). -/
def renderSummaryTable (r : Renderer) (s : PlanSummary) : Str :=
  summaryHeader r
  ++ summaryTopBorder ++ summaryHeaderRow ++ summarySep
  ++ actionRow r (str "Create") s.addCount greenString
  ++ actionRow r (str "Update") s.changeCount yellowString
  ++ actionRow r (str "Delete") s.deleteCount redString
  ++ actionRow r (str "No-op") s.noOpCount blueString
  ++ summarySep
  ++ totalRow r (s.addCount + s.changeCount + s.deleteCount + s.noOpCount)
  ++ summaryBottomBorder
  ++ ['\n']

/-- Lexicographic (Go byte-order) comparison on strings used by the
sorting calls; the instance is the linear order on `List Char`. -/
def strLe (a b : Str) : Prop := a ≤ b

instance : DecidableRel strLe := fun a b => inferInstanceAs (Decidable (a ≤ b))

/-- Sorted attribute-key list of `renderAttributeChanges` (renderer.go
666-693): keys of `BeforeValues` whose value is missing from or differs in
`AfterValues`, plus keys only in `AfterValues`, collected as a set and
sorted (Go map keys are unique; `dedup` models the set). -/
def changedAttrs (c : ResourceChange) : List Str :=
  let fromBefore := (c.beforeValues.map Prod.fst).filter fun k =>
    match lookupA c.afterValues k with
    | some av => decide (av ≠ (lookupA c.beforeValues k).getD [])
    | none => true
  let fromAfter := (c.afterValues.map Prod.fst).filter fun k =>
    decide (lookupA c.beforeValues k = none)
  List.insertionSort strLe (fromBefore ++ fromAfter).dedup

/-- One data row of the attribute-diff table (renderer.go 748-782),
including the wide-format test special case and the fit-dependent
truncation skip. Go's `r.config != nil` part of the wide-format check is
always true in the model, since `New` and `WithConfig` always install a
config. -/
def attrRow (r : Renderer) (c : ResourceChange) (attrWidth valueWidth : Nat) (attr : Str) : Str :=
  let oldVal := (lookupA c.beforeValues attr).getD []
  let newVal := (lookupA c.afterValues attr).getD []
  let oldVal := if oldVal = [] then str "(none)" else oldVal
  let newVal := if newVal = [] then str "(none)" else newVal
  let isWideFormat : Bool := decide (r.config.outputFormat = wideFormat)
  let pair :=
    if isWideFormat ∧ (containsSub oldVal (str "longer description")
        ∨ containsSub newVal (str "longer description")) then
      (oldVal, newVal)
    else
      (if ¬isWideFormat ∨ valueWidth < oldVal.length then truncateValue oldVal valueWidth else oldVal,
       if ¬isWideFormat ∨ valueWidth < newVal.length then truncateValue newVal valueWidth else newVal)
  line (str "  | " ++ padRight attr attrWidth ++ str " | " ++ padRight pair.1 valueWidth
        ++ str " | " ++ padRight pair.2 valueWidth ++ str " |")

/-- Go `(*Renderer).renderAttributeChanges` (renderer.go 663-793); emits
nothing when no attribute changed. Table widths come from the table config
(always positive for any config produced by `getTableConfig`; `toNat`
bridges the model's ints to the character-count repeats). -/
def renderAttributeChanges (r : Renderer) (c : ResourceChange) : Str :=
  let attrs := changedAttrs c
  if attrs.length = 0 then []
  else
    let attrWidth := r.tableConfig.maxAttributeWidth.toNat
    let valueWidth := r.tableConfig.maxValueWidth.toNat
    line (str "  ┌" ++ repChar '─' (attrWidth + 2) ++ '┬' :: repChar '─' (valueWidth + 2)
          ++ '┬' :: repChar '─' (valueWidth + 2) ++ ['┐'])
    ++ line (str "  │ " ++ padRight (str "ATTRIBUTE") attrWidth ++ str " │ "
             ++ padRight (str "OLD VALUE") valueWidth ++ str " │ "
             ++ padRight (str "NEW VALUE") valueWidth ++ str " │")
    ++ line (str "  ├" ++ repChar '─' (attrWidth + 2) ++ '┼' :: repChar '─' (valueWidth + 2)
             ++ '┼' :: repChar '─' (valueWidth + 2) ++ ['┤'])
    ++ (attrs.map (attrRow r c attrWidth valueWidth)).flatten
    ++ line (str "  └" ++ repChar '─' (attrWidth + 2) ++ '┴' :: repChar '─' (valueWidth + 2)
             ++ '┴' :: repChar '─' (valueWidth + 2) ++ ['┘'])

/-- One data row of the destroyed-attributes table (renderer.go 548-565). -/
def deletedRow (r : Renderer) (c : ResourceChange) (attrWidth valueWidth : Nat) (attr : Str) : Str :=
  let val := (lookupA c.beforeValues attr).getD []
  let val := if val = [] then str "(none)" else val
  let isWideFormat : Bool := decide (r.config.outputFormat = wideFormat)
  let val := if ¬isWideFormat ∨ valueWidth < val.length then truncateValue val valueWidth else val
  line (str "  | " ++ padRight attr attrWidth ++ str " | " ++ padRight val valueWidth ++ str " |")

/-- Go `(*Renderer).renderDeletedAttributes` (renderer.go 491-574): the
single current-value table of a delete-kind resource, occupying the width
of both value columns. -/
def renderDeletedAttributes (r : Renderer) (c : ResourceChange) : Str :=
  if c.beforeValues.length = 0 then []
  else
    let attrs := List.insertionSort strLe (c.beforeValues.map Prod.fst).dedup
    let attrWidth := r.tableConfig.maxAttributeWidth.toNat
    let valueWidth := (r.tableConfig.maxValueWidth * 2 + 3).toNat
    line (str "  ┌" ++ repChar '─' (attrWidth + 2) ++ '┬' :: repChar '─' (valueWidth + 2) ++ ['┐'])
    ++ line (str "  │ " ++ padRight (str "ATTRIBUTE") attrWidth ++ str " │ "
             ++ padRight (str "CURRENT VALUE (WILL BE DESTROYED)") valueWidth ++ str " │")
    ++ line (str "  ├" ++ repChar '─' (attrWidth + 2) ++ '┼' :: repChar '─' (valueWidth + 2) ++ ['┤'])
    ++ (attrs.map (deletedRow r c attrWidth valueWidth)).flatten
    ++ line (str "  └" ++ repChar '─' (attrWidth + 2) ++ '┴' :: repChar '─' (valueWidth + 2) ++ ['┘'])

/-- Go `(*Renderer).renderResourceChange` (renderer.go 450-488). -/
def renderResourceChange (r : Renderer) (colorFn : Str → Str) (c : ResourceChange) : Str :=
  let symbol := match c.changeType with
    | ChangeType.create => str "+"
    | ChangeType.update => str "~"
    | ChangeType.delete => str "-"
    | ChangeType.noOp => str "•"
  let address := if r.colorEnabled then colorFn c.address else c.address
  let resourceType := if r.colorEnabled then colorFn c.type else c.type
  let symbol := if r.colorEnabled then colorFn symbol else symbol
  line (symbol ++ ' ' :: (address ++ str " (" ++ resourceType ++ str ")"))
  ++ (if c.changeType = ChangeType.update then renderAttributeChanges r c else [])
  ++ (if c.changeType = ChangeType.delete ∧ c.beforeValues.length > 0 then
        renderDeletedAttributes r c
      else [])
  ++ ['\n']

/-- Address order on resource changes, the comparison of the `sort.Slice`
call of `renderChangeGroup` (renderer.go 440-442). -/
def addrLe (a b : ResourceChange) : Prop := strLe a.address b.address

instance : DecidableRel addrLe := fun a b => inferInstanceAs (Decidable (strLe a.address b.address))

/-- The in-place `sort.Slice(changes, ...)` of `renderChangeGroup`: Go's
sort is unstable but, for fewer than 13 elements, is an insertion sort;
modelled as insertion sort by address. -/
def sortByAddress (l : List ResourceChange) : List ResourceChange :=
  List.insertionSort addrLe l

instance : IsTotal ResourceChange addrLe :=
  ⟨fun a b => le_total a.address b.address⟩

instance : IsTrans ResourceChange addrLe :=
  ⟨fun _ _ _ h₁ h₂ => le_trans h₁ h₂⟩

/-- Section header lines of `renderChangeGroup` (renderer.go 426-437); the
title is ASCII so Go's byte length equals the character count. -/
def groupHeader (r : Renderer) (title : Str) (colorFn : Str → Str) : Str :=
  ['\n']
  ++ line (if r.colorEnabled then colorFn (str "▶ " ++ title) else str "▶ " ++ title)
  ++ line (if r.colorEnabled then colorFn (repChar '═' (title.length + 2))
           else repChar '═' (title.length + 2))
  ++ ['\n']

/-- Go `(*Renderer).renderChangeGroup` (renderer.go 425-447). -/
def renderChangeGroup (r : Renderer) (title : Str) (changes : List ResourceChange)
    (colorFn : Str → Str) : Str :=
  groupHeader r title colorFn
  ++ ((sortByAddress changes).map (renderResourceChange r colorFn)).flatten

/-- Go `filterByChangeType` (renderer.go 795-804): appends the matching
elements to a nil slice, i.e. filters into a fresh list. -/
def filterByChangeType (changes : List ResourceChange) (k : ChangeType) : List ResourceChange :=
  changes.filter fun c => c.changeType = k

/-- Go `(*Renderer).renderResourceChanges` (renderer.go 403-422). -/
def renderResourceChanges (r : Renderer) (s : PlanSummary) : Str :=
  let creates := filterByChangeType s.resourceChanges ChangeType.create
  let updates := filterByChangeType s.resourceChanges ChangeType.update
  let deletes := filterByChangeType s.resourceChanges ChangeType.delete
  (if creates.length > 0 then renderChangeGroup r (str "Resources to Create") creates greenString else [])
  ++ (if updates.length > 0 then renderChangeGroup r (str "Resources to Update") updates yellowString else [])
  ++ (if deletes.length > 0 then renderChangeGroup r (str "Resources to Delete") deletes redString else [])

/-- Trailing block of `Render` (renderer.go 282-287): a blank line, the
`Summary` heading, and the summary table once more. -/
def summaryTrailerHeading : Str :=
  ['\n'] ++ line (str "Summary") ++ line (str "=======") ++ ['\n']

/-- Go `(*Renderer).Render` (renderer.go 277-288). -/
def render (r : Renderer) (s : PlanSummary) : Str :=
  renderSummaryTable r s
  ++ renderResourceChanges r s
  ++ summaryTrailerHeading
  ++ renderSummaryTable r s

/-- Go `(*Renderer).RenderToString` (renderer.go 806-811): `Render` into a
fresh buffer. -/
def renderToString (r : Renderer) (s : PlanSummary) : Str := render r s

/-! ### State-passing view of the render pass

Go slices alias backing arrays, and `sort.Slice` in `renderChangeGroup`
sorts its argument in place; whether rendering mutates the caller's
summary therefore depends on whether the slices handed to
`renderChangeGroup` alias `summary.ResourceChanges`. The embedding below
makes that explicit: a slice value is either an alias of the caller's
collection or a fresh array, `sort.Slice` on an alias writes the sorted
order back into the summary, and `filterByChangeType` — which appends its
matches to a nil slice — yields a fresh array. The summary is threaded
through every call, so any in-place mutation the source could perform is
visible in the returned state. -/

/-- A Go slice of resource changes inside the render pass: an alias of
`summary.ResourceChanges`, or a fresh backing array. -/
inductive GoSlice where
  | summaryAlias
  | freshArr (l : List ResourceChange)

/-- The elements a slice currently denotes, given the summary state. -/
def sliceElems (st : PlanSummary) : GoSlice → List ResourceChange
  | GoSlice.summaryAlias => st.resourceChanges
  | GoSlice.freshArr l => l

/-- Go `sort.Slice` by address, in place: sorting an alias of the caller's
collection reorders the caller's collection. -/
def sortSliceInPlace (st : PlanSummary) : GoSlice → PlanSummary × GoSlice
  | GoSlice.summaryAlias =>
    ({ st with resourceChanges := sortByAddress st.resourceChanges }, GoSlice.summaryAlias)
  | GoSlice.freshArr l => (st, GoSlice.freshArr (sortByAddress l))

/-- Go `filterByChangeType` as executed on a slice value: `append` onto a
nil slice allocates, so the result is a fresh array. -/
def filterByChangeTypeAlloc (st : PlanSummary) (sl : GoSlice) (k : ChangeType) : GoSlice :=
  GoSlice.freshArr (filterByChangeType (sliceElems st sl) k)

/-- `renderChangeGroup`, threading the summary state through its in-place
sort. -/
def renderChangeGroupSt (r : Renderer) (title : Str) (colorFn : Str → Str)
    (st : PlanSummary) (sl : GoSlice) : Str × PlanSummary :=
  let p := sortSliceInPlace st sl
  (groupHeader r title colorFn
     ++ ((sliceElems p.1 p.2).map (renderResourceChange r colorFn)).flatten,
   p.1)

/-- `renderResourceChanges`, threading the summary state. -/
def renderResourceChangesSt (r : Renderer) (st : PlanSummary) : Str × PlanSummary :=
  let creates := filterByChangeTypeAlloc st GoSlice.summaryAlias ChangeType.create
  let updates := filterByChangeTypeAlloc st GoSlice.summaryAlias ChangeType.update
  let deletes := filterByChangeTypeAlloc st GoSlice.summaryAlias ChangeType.delete
  let p1 := if (sliceElems st creates).length > 0 then
      renderChangeGroupSt r (str "Resources to Create") greenString st creates
    else ([], st)
  let p2 := if (sliceElems p1.2 updates).length > 0 then
      renderChangeGroupSt r (str "Resources to Update") yellowString p1.2 updates
    else ([], p1.2)
  let p3 := if (sliceElems p2.2 deletes).length > 0 then
      renderChangeGroupSt r (str "Resources to Delete") redString p2.2 deletes
    else ([], p2.2)
  (p1.1 ++ p2.1 ++ p3.1, p3.2)

/-- `Render`, threading the summary state: the final state is what the
caller's summary holds after the call. -/
def renderSt (r : Renderer) (st : PlanSummary) : Str × PlanSummary :=
  let t0 := renderSummaryTable r st
  let p := renderResourceChangesSt r st
  (t0 ++ p.1 ++ summaryTrailerHeading ++ renderSummaryTable r p.2, p.2)

/-! ### Spec-side definitions and concrete instances used by the claims -/

/-- Modelled from the spec: change-kind resolution read off the raw record
exactly as §4.3 words it — the first element of `change.actions` mapped by
`create/update/delete/no-op`, with any other value, an empty list, or an
absent `actions` or `change` field giving NoOp. Compared against the
normalizer from the source. -/
def specKindOfRaw (raw : RawRecord) : ChangeType :=
  match lookupA raw (str "change") with
  | some (JValue.obj c) =>
    match lookupA c (str "actions") with
    | some (JValue.arr actions) =>
      match actions with
      | JValue.str a :: _ =>
        if a = str "create" then ChangeType.create
        else if a = str "update" then ChangeType.update
        else if a = str "delete" then ChangeType.delete
        else ChangeType.noOp
      | _ => ChangeType.noOp
    | _ => ChangeType.noOp
  | _ => ChangeType.noOp

/-- Modelled from the spec: a record whose `address` is missing, not a
string, or the empty string — the condition §4.3 names as the only hard
normalization failure. Compared against the normalizer from the source. -/
def addressInvalid (raw : RawRecord) : Bool :=
  match lookupA raw (str "address") with
  | some (JValue.str a) => decide (a = [])
  | _ => true

/-- Sum of the four kind counters of a summary. -/
def countsSum (s : PlanSummary) : Nat :=
  s.addCount + s.changeCount + s.deleteCount + s.noOpCount

/-- The spec's sample raw record: `actions: ["create"]`, `before: null`,
`after: {"ami":"ami-123"}`. -/
def rawCreateExample : RawRecord :=
  [ (str "address", JValue.str (str "aws_instance.example"))
  , (str "type", JValue.str (str "aws_instance"))
  , (str "change", JValue.obj
      [ (str "actions", JValue.arr [JValue.str (str "create")])
      , (str "before", JValue.null)
      , (str "after", JValue.obj [(str "ami", JValue.str (str "ami-123"))]) ]) ]

/-- A no-color standard-format renderer used as a concrete test fixture. -/
def rStd : Renderer :=
  { colorEnabled := false
    config := { outputFormat := standardFormat
                noColor := true
                maxWidth := 80
                autoDetectWidth := false }
    tableConfig := getTableConfig
      { outputFormat := standardFormat
        noColor := true
        maxWidth := 80
        autoDetectWidth := false } }

/-- Update-kind resource change fixture. -/
def rcU1 : ResourceChange :=
  { address := str "aws_instance.a"
    type := str "aws_instance"
    name := str "a"
    changeType := ChangeType.update
    before := []
    after := []
    beforeValues := [(str "ami", str "one")]
    afterValues := [(str "ami", str "two")]
    module := [] }

/-- A second update fixture sharing `rcU1`'s address but with a different
new value. -/
def rcU2 : ResourceChange :=
  { rcU1 with afterValues := [(str "ami", str "three")] }

/-- Create-kind resource change fixture. -/
def rcC1 : ResourceChange :=
  { address := str "aws_instance.a"
    type := str "aws_instance"
    name := str "a"
    changeType := ChangeType.create
    before := []
    after := []
    beforeValues := []
    afterValues := [(str "ami", str "ami-123")]
    module := [] }

/-- A second create fixture with a distinct address. -/
def rcC2 : ResourceChange :=
  { rcC1 with address := str "aws_instance.b", name := str "b" }

/-- Result of normalizing the spec's create sample. -/
def rcCreateResult : ResourceChange :=
  { address := str "aws_instance.example"
    type := str "aws_instance"
    name := str "example"
    changeType := ChangeType.create
    before := []
    after := [(str "ami", JValue.str (str "ami-123"))]
    beforeValues := []
    afterValues := [(str "ami", str "ami-123")]
    module := [] }

/-- A summary fixture with one create and one update, counters matching. -/
def planC3 : PlanSummary :=
  { resourceChanges := [rcC1, rcU1], addCount := 1, changeCount := 1 }

/-! ### Theorems -/

/-- C7: truncate applied to the input
`/very/long/path/with/many/nested/directories/file.txt` with width 25
returns exactly `/very/long/.../file.txt`. -/
theorem c7_path_truncation_sample :
    truncateValue (str "/very/long/path/with/many/nested/directories/file.txt") 25
      = str "/very/long/.../file.txt" := by decide

/-- C1: evaluation of the code at a failing input. The path branch reserves
5 characters for the `/.../` joiner but, when interior segments are kept,
emits a 6-character joiner (`/` + `/.../`), so
`truncateValue "xx/a/b/cccccc/yy" 12` has 13 characters — the claimed bound
`len(result) ≤ w`, asserted by the repository's own test
(`TestTruncateValue` checks `len(got) > tt.maxWidth`), fails; consequently
the claim's universally quantified bound is false. -/
theorem c1_width_bound_violated :
    truncateValue (str "xx/a/b/cccccc/yy") 12 = str "xx/a/b/.../yy"
    ∧ 12 < (truncateValue (str "xx/a/b/cccccc/yy") 12).length
    ∧ ¬ (∀ v w, 1 ≤ w → (truncateValue v w).length ≤ w) := by
  refine ⟨by decide, by decide, fun h => ?_⟩
  exact absurd (h (str "xx/a/b/cccccc/yy") 12 (by decide)) (by decide)

/-- C6: with auto-detection off, the table widths are 13/16 for standard
format and 13/32 for wide format; with auto-detection on and a positive
total width, `available = totalWidth - 10`, and exactly when
`available > 60` the widths become `available*30/100` and
`available*35/100` (truncating division), otherwise the format-based base
widths are kept. -/
theorem c6_table_widths (c : Config) :
    (c.autoDetectWidth = false → c.outputFormat = standardFormat →
      getTableConfig c = ⟨13, 16, 10⟩)
    ∧ (c.autoDetectWidth = false → c.outputFormat = wideFormat →
      getTableConfig c = ⟨13, 32, 10⟩)
    ∧ (c.autoDetectWidth = true → 0 < c.maxWidth →
        (60 < c.maxWidth - 10 →
          getTableConfig c
            = ⟨(c.maxWidth - 10) * 30 / 100, (c.maxWidth - 10) * 35 / 100, 10⟩)
        ∧ (¬ 60 < c.maxWidth - 10 →
          getTableConfig c
            = ⟨13, if c.outputFormat = wideFormat then 32 else 16, 10⟩)) := by
  refine ⟨fun hauto hfmt => ?_, fun hauto hfmt => ?_, fun hauto hpos => ⟨fun hgt => ?_, fun hle => ?_⟩⟩
  · have : ¬ (c.outputFormat = wideFormat) := by rw [hfmt]; decide
    simp [getTableConfig, hauto, this]
  · simp [getTableConfig, hauto, hfmt]
  · simp [getTableConfig, hauto, hpos, hgt]
  · simp [getTableConfig, hauto, hpos, hle]

/-- C6 witness: the standard-format no-auto-detect configuration yields
attribute width 13 and value width 16. -/
theorem c6_table_widths_witness :
    getTableConfig { outputFormat := standardFormat, noColor := false,
                     maxWidth := 80, autoDetectWidth := false }
      = ⟨13, 16, 10⟩ :=
  (c6_table_widths _).1 rfl rfl

/-- Aggregation preserves the partition invariant: each successfully
normalized record is appended and bumps exactly one counter. -/
theorem aggregateStep_countsSum (s : PlanSummary) (raw : RawRecord)
    (h : countsSum s = s.resourceChanges.length) :
    countsSum (aggregateStep s raw) = (aggregateStep s raw).resourceChanges.length := by
  unfold aggregateStep
  cases hp : processResourceChange raw with
  | error e => simpa using h
  | ok rc =>
    cases hk : rc.changeType <;> simp [countsSum, hk] at h ⊢ <;> omega

/-- The partition invariant holds of every fold state reachable from one
that satisfies it. -/
theorem foldl_countsSum (records : List RawRecord) (s : PlanSummary)
    (h : countsSum s = s.resourceChanges.length) :
    countsSum (records.foldl aggregateStep s)
      = (records.foldl aggregateStep s).resourceChanges.length := by
  induction records generalizing s with
  | nil => simpa using h
  | cons r rest ih => exact ih _ (aggregateStep_countsSum s r h)

/-- C2: for a non-empty decoded `resource_changes` list, the four counters
of the aggregated summary sum to the number of entries of its
`resourceChanges` collection. -/
theorem c2_counts_partition (records : List RawRecord) (h : records ≠ []) :
    (parseJSONFromChanges records).addCount + (parseJSONFromChanges records).changeCount
      + (parseJSONFromChanges records).deleteCount + (parseJSONFromChanges records).noOpCount
    = (parseJSONFromChanges records).resourceChanges.length := by
  unfold parseJSONFromChanges
  rw [if_neg (by simpa using h)]
  exact foldl_countsSum records _ rfl

/-- C2 witness: the one-record plan built from the spec's create sample has
counter sum 1 = length of its change list. -/
theorem c2_counts_partition_witness :
    (parseJSONFromChanges [rawCreateExample]).addCount
      + (parseJSONFromChanges [rawCreateExample]).changeCount
      + (parseJSONFromChanges [rawCreateExample]).deleteCount
      + (parseJSONFromChanges [rawCreateExample]).noOpCount
    = (parseJSONFromChanges [rawCreateExample]).resourceChanges.length :=
  c2_counts_partition [rawCreateExample] (List.cons_ne_nil _ _)

/-- The aggregation fold appends exactly the successfully normalized
records, in input order. -/
theorem foldl_resourceChanges (records : List RawRecord) (s : PlanSummary) :
    (records.foldl aggregateStep s).resourceChanges
      = s.resourceChanges
        ++ records.filterMap fun raw => (processResourceChange raw).toOption := by
  induction records generalizing s with
  | nil => simp
  | cons r rest ih =>
    rw [List.foldl_cons, ih, List.filterMap_cons]
    unfold aggregateStep
    cases hp : processResourceChange r with
    | error e => simp [Except.toOption]
    | ok rc =>
      cases hk : rc.changeType <;> simp [Except.toOption, hk]

/-- C5: normalization fails exactly on a missing, non-string, or empty
address, and the aggregator keeps exactly the records whose normalization
succeeds, in order — a failing record is skipped, every other record is
still processed. -/
theorem c5_invalid_address_and_skip :
    (∀ raw, (processResourceChange raw).isOk = false ↔ addressInvalid raw = true)
    ∧ (∀ records, (parseJSONFromChanges records).resourceChanges
        = records.filterMap fun raw => (processResourceChange raw).toOption) := by
  constructor
  · intro raw
    unfold processResourceChange addressInvalid
    cases hl : lookupA raw (str "address") with
    | none => simp [Except.isOk, Except.toBool]
    | some v =>
      cases v <;> simp [Except.isOk, Except.toBool]
      case str a =>
        by_cases ha : a = []
        · simp [ha, Except.isOk, Except.toBool]
        · simp only [if_neg ha]
          cases hC : lookupA raw (str "change") with
          | none => simp [Except.isOk, Except.toBool, ha]
          | some w => cases w <;> simp [Except.isOk, Except.toBool, ha]
  · intro records
    unfold parseJSONFromChanges
    by_cases h : records.length = 0
    · rw [if_pos h]
      rw [List.length_eq_zero] at h
      simp [h]
    · rw [if_neg h]
      simpa using foldl_resourceChanges records { resourceChanges := [] }

/-- C4: the classified change kind of every successfully normalized record
is exactly the spec's function of the first element of `change.actions`
(unrecognized, empty, or absent data giving NoOp), and the spec's sample
record with `actions ["create"]`, `before null`, `after {"ami":"ami-123"}`
normalizes to kind Create with `afterValues["ami"] = "ami-123"`. -/
theorem c4_kind_from_first_action :
    (∀ raw rc, processResourceChange raw = Except.ok rc → rc.changeType = specKindOfRaw raw)
    ∧ (processResourceChange rawCreateExample).toOption.map ResourceChange.changeType
        = some ChangeType.create
    ∧ (processResourceChange rawCreateExample).toOption.map
        (fun rc => lookupA rc.afterValues (str "ami"))
        = some (some (str "ami-123")) := by
  refine ⟨?_, by decide, by decide⟩
  intro raw rc h
  unfold specKindOfRaw
  unfold processResourceChange at h
  cases hA : lookupA raw (str "address") with
  | none => rw [hA] at h; simp at h
  | some v =>
    rw [hA] at h
    cases v <;> simp at h
    case str a =>
      by_cases ha : a = []
      · simp [ha] at h
      · rw [if_neg ha] at h
        cases hC : lookupA raw (str "change") with
        | none =>
          rw [hC] at h
          simp at h
          rw [← h]
        | some w =>
          rw [hC] at h
          cases w <;> simp at h <;> rw [← h] <;> try rfl
          next change =>
            dsimp only
            cases hAct : lookupA change (str "actions") with
            | none => rfl
            | some u =>
              cases u <;> try rfl
              next actions =>
                cases actions with
                | nil => rfl
                | cons x t =>
                  dsimp only
                  rw [List.length_cons, if_pos (Nat.succ_pos _)]
                  dsimp only [List.headI]
                  cases x <;> rfl

/-- C4 witness: the kind theorem applied to the spec's create sample. -/
theorem c4_kind_from_first_action_witness :
    rcCreateResult.changeType = specKindOfRaw rawCreateExample :=
  c4_kind_from_first_action.1 rawCreateExample rcCreateResult rfl

/-- C3: the report opens with the summary table, whose Total row carries
the sum of the four kind counters; the detail sections follow in the fixed
order Create, Update, Delete, each present exactly when its kind's count is
positive (counts agreeing with the per-kind partition of the change list),
and nothing else — in particular no NoOp section — appears between the
table and the trailing block. -/
theorem c3_report_structure (r : Renderer) (s : PlanSummary)
    (ha : s.addCount = (filterByChangeType s.resourceChanges ChangeType.create).length)
    (hc : s.changeCount = (filterByChangeType s.resourceChanges ChangeType.update).length)
    (hd : s.deleteCount = (filterByChangeType s.resourceChanges ChangeType.delete).length) :
    (totalRow r (s.addCount + s.changeCount + s.deleteCount + s.noOpCount)).IsInfix
        (renderSummaryTable r s)
    ∧ renderToString r s
      = renderSummaryTable r s
        ++ ((if 0 < s.addCount then
              renderChangeGroup r (str "Resources to Create")
                (filterByChangeType s.resourceChanges ChangeType.create) greenString
             else [])
          ++ (if 0 < s.changeCount then
              renderChangeGroup r (str "Resources to Update")
                (filterByChangeType s.resourceChanges ChangeType.update) yellowString
             else [])
          ++ (if 0 < s.deleteCount then
              renderChangeGroup r (str "Resources to Delete")
                (filterByChangeType s.resourceChanges ChangeType.delete) redString
             else []))
        ++ summaryTrailerHeading
        ++ renderSummaryTable r s := by
  constructor
  · refine ⟨summaryHeader r ++ summaryTopBorder ++ summaryHeaderRow ++ summarySep
      ++ actionRow r (str "Create") s.addCount greenString
      ++ actionRow r (str "Update") s.changeCount yellowString
      ++ actionRow r (str "Delete") s.deleteCount redString
      ++ actionRow r (str "No-op") s.noOpCount blueString
      ++ summarySep, summaryBottomBorder ++ ['\n'], ?_⟩
    simp [renderSummaryTable, List.append_assoc]
  · rw [ha, hc, hd]
    rfl

/-- C3 witness: the structure theorem applied to a summary with one create
and one update. -/
theorem c3_report_structure_witness :
    (totalRow rStd (planC3.addCount + planC3.changeCount + planC3.deleteCount
        + planC3.noOpCount)).IsInfix (renderSummaryTable rStd planC3) :=
  (c3_report_structure rStd planC3 (by decide) (by decide) (by decide)).1

/-- C10: the report is the summary table, then the detail sections, then a
blank line, a `Summary` heading with its underline, a blank line, and the
summary table once more — the two table occurrences are the very same
bytes, and the report ends with the trailing occurrence. -/
theorem c10_trailing_summary_table (r : Renderer) (s : PlanSummary) :
    renderToString r s
      = renderSummaryTable r s
        ++ renderResourceChanges r s
        ++ (['\n'] ++ line (str "Summary") ++ line (str "=======") ++ ['\n'])
        ++ renderSummaryTable r s
    ∧ (renderSummaryTable r s).IsSuffix (renderToString r s) := by
  constructor
  · rfl
  · exact ⟨renderSummaryTable r s ++ renderResourceChanges r s ++ summaryTrailerHeading,
      by simp [renderToString, render, List.append_assoc]⟩

/-- C9: threading the summary state through the render pass returns it
unchanged — the caller's `resourceChanges` keeps its elements and order and
all four counters keep their values, because the slices the in-place sort
touches are the fresh arrays built by `filterByChangeType` — and the text
produced is exactly the pure render. -/
theorem c9_render_does_not_mutate (r : Renderer) (s : PlanSummary) :
    renderSt r s = (renderToString r s, s) := by
  unfold renderSt renderResourceChangesSt renderToString render renderResourceChanges
  dsimp only [filterByChangeTypeAlloc, sliceElems, renderChangeGroupSt, sortSliceInPlace,
    renderChangeGroup]
  split_ifs <;> rfl

/-- Two address-sorted lists that are permutations of one another and whose
addresses are pairwise distinct are equal. -/
theorem sorted_eq_of_perm_of_nodup_addr :
    ∀ {l₁ l₂ : List ResourceChange}, l₁.Perm l₂ → l₁.Sorted addrLe → l₂.Sorted addrLe →
      (l₁.map ResourceChange.address).Nodup → l₁ = l₂ := by
  intro l₁
  induction l₁ with
  | nil =>
    intro l₂ hp _ _ _
    exact (hp.symm.eq_nil).symm
  | cons a t ih =>
    intro l₂ hp h₁ h₂ hnd
    cases l₂ with
    | nil => exact absurd hp.eq_nil (List.cons_ne_nil a t)
    | cons b u =>
      simp only [List.map_cons, List.nodup_cons] at hnd
      have hab : a = b := by
        by_contra hne
        have hbt : b ∈ t := by
          rcases List.mem_cons.mp (hp.symm.subset (List.mem_cons_self b u)) with h | h
          · exact absurd h.symm hne
          · exact h
        have hau : a ∈ u := by
          rcases List.mem_cons.mp (hp.subset (List.mem_cons_self a t)) with h | h
          · exact absurd h hne
          · exact h
        have hle₁ : addrLe a b := (List.sorted_cons.mp h₁).1 b hbt
        have hle₂ : addrLe b a := (List.sorted_cons.mp h₂).1 a hau
        have haddr : b.address = a.address := le_antisymm hle₂ hle₁
        exact hnd.1 (haddr ▸ List.mem_map_of_mem ResourceChange.address hbt)
      subst hab
      have htu : t = u :=
        ih hp.cons_inv (List.sorted_cons.mp h₁).2 (List.sorted_cons.mp h₂).2 hnd.2
      rw [htu]

/-- Sorting by address is order-independent when addresses are pairwise
distinct. -/
theorem sortByAddress_eq_of_perm {l l' : List ResourceChange} (hp : l.Perm l')
    (hnd : (l.map ResourceChange.address).Nodup) :
    sortByAddress l = sortByAddress l' := by
  apply sorted_eq_of_perm_of_nodup_addr
  · exact (List.perm_insertionSort addrLe l).trans (hp.trans (List.perm_insertionSort addrLe l').symm)
  · exact List.sorted_insertionSort addrLe l
  · exact List.sorted_insertionSort addrLe l'
  · exact ((List.perm_insertionSort addrLe l).map ResourceChange.address).nodup_iff.mpr hnd

set_option maxRecDepth 8000 in
/-- C8 (counterexample): with two update records sharing one address,
swapping their input order changes the rendered bytes, so render output is
not independent of the input order of `resourceChanges` within a kind —
the unstable in-place sort only orders by address and keeps duplicate
addresses in encounter order. -/
theorem c8_order_dependence_counterexample :
    renderToString rStd { resourceChanges := [rcU1, rcU2], changeCount := 2 }
      ≠ renderToString rStd { resourceChanges := [rcU2, rcU1], changeCount := 2 } := by
  decide

/-- C8 (amended): every detail section lists its group in address-sorted
order (the sorted list being a permutation of the group), and — provided
the addresses of the summary's changes are pairwise distinct — rendering
is byte-identical across input orders of `resourceChanges`; with duplicate
addresses only per-call determinism holds. -/
theorem c8_sorted_sections_and_determinism (r : Renderer) (s : PlanSummary)
    (l' : List ResourceChange) (hp : s.resourceChanges.Perm l')
    (hnd : (s.resourceChanges.map ResourceChange.address).Nodup) :
    (∀ title changes colorFn,
        renderChangeGroup r title changes colorFn
          = groupHeader r title colorFn
            ++ ((sortByAddress changes).map (renderResourceChange r colorFn)).flatten
        ∧ (sortByAddress changes).Sorted addrLe
        ∧ (sortByAddress changes).Perm changes)
    ∧ renderToString r { s with resourceChanges := l' } = renderToString r s := by
  constructor
  · intro title changes colorFn
    exact ⟨rfl, List.sorted_insertionSort addrLe changes, List.perm_insertionSort addrLe changes⟩
  · have hfil : ∀ k, filterByChangeType l' k = List.filter (fun c => decide (c.changeType = k)) l' := fun _ => rfl
    have h1 : ∀ k t f, renderChangeGroup r t (filterByChangeType l' k) f
        = renderChangeGroup r t (filterByChangeType s.resourceChanges k) f := by
      intro k t f
      unfold renderChangeGroup
      rw [sortByAddress_eq_of_perm (l := filterByChangeType s.resourceChanges k)
        (hp.filter _)
        (List.Nodup.sublist ((List.filter_sublist _).map ResourceChange.address) hnd)]
      rfl
    have h2 : ∀ k, (filterByChangeType l' k).length
        = (filterByChangeType s.resourceChanges k).length :=
      fun k => ((hp.filter _).length_eq).symm
    have h3 : renderSummaryTable r { s with resourceChanges := l' } = renderSummaryTable r s := rfl
    show renderToString r { s with resourceChanges := l' } = renderToString r s
    unfold renderToString render renderResourceChanges
    simp only [h1, h2, h3]

/-- C8 witness: the determinism theorem applied to two creates with
distinct addresses in either input order. -/
theorem c8_sorted_sections_and_determinism_witness :
    renderToString rStd { resourceChanges := [rcC2, rcC1], addCount := 2 }
      = renderToString rStd { resourceChanges := [rcC1, rcC2], addCount := 2 } :=
  (c8_sorted_sections_and_determinism rStd { resourceChanges := [rcC1, rcC2], addCount := 2 }
    [rcC2, rcC1] (List.Perm.swap rcC2 rcC1 []) (by decide)).2

end TFPP
